import Mathlib

/-
Verification development for the really-notify crate.

Shallow embedding of:
  src/lib.rs              (FileWatcherConfig::run, read_target, start)
  src/inotify.rs          (normalize, INotify::stream event decoder)
  src/backend/inotify.rs  (start_backend, load_config, MAX_ITER, event loop)

Paths are modelled as an absolute-flag plus a list of components, mirroring
std::path::Component (RootDir is the flag, CurDir, ParentDir, Normal).  The
filesystem is an oracle keyed by the literally queried path: `FS.readLink p`
is the answer the kernel gives to readlink(p), and symlink_metadata(p)
reports a symlink exactly when that answer exists.  Fuel parameters replace
the source's unbounded loops; running out of fuel is reported as
`BuildErr.fuelOut`, which is distinct from the panics the claims are about.
-/

namespace ReallyNotify

/-- One path component after the leading root, as in std::path::Component:
`parentDir` is ParentDir (..), `curDir` is CurDir (.), `normal` a named
component. -/
inductive PComp where
  | parentDir : PComp
  | curDir : PComp
  | normal : String → PComp
deriving DecidableEq

/-- A path: `absolute` records a leading RootDir, `comps` the remaining
components in order. -/
structure RPath where
  absolute : Bool
  comps : List PComp
deriving DecidableEq

/-- Path::parent — the path minus its final component, None at the root or
the empty relative path (std::path::Path::parent). -/
def RPath.parent (p : RPath) : Option RPath :=
  if p.comps.isEmpty then none else some ⟨p.absolute, p.comps.dropLast⟩

/-- Path::file_name — Some only when the final component is a Normal named
component (std::path::Path::file_name returns None for `..` and the root). -/
def RPath.fileName (p : RPath) : Option String :=
  match p.comps.getLast? with
  | some (PComp.normal s) => some s
  | _ => none

/-- PathBuf::join — joining an absolute path replaces the receiver,
joining a relative path appends its components. -/
def RPath.join (base p : RPath) : RPath :=
  if p.absolute then p else ⟨base.absolute, base.comps ++ p.comps⟩

def RPath.isRelative (p : RPath) : Bool := !p.absolute

/-- The component sequence produced by Path::components(): occurrences of
CurDir are normalized away, except a leading CurDir of a relative path. -/
def rustComponents (p : RPath) : List PComp :=
  if p.absolute then p.comps.filter (fun c => c ≠ PComp.curDir)
  else
    match p.comps with
    | PComp.curDir :: rest => PComp.curDir :: rest.filter (fun c => c ≠ PComp.curDir)
    | l => l.filter (fun c => c ≠ PComp.curDir)

/-- PathBuf::push of a single non-root component: appended at the end. -/
def pushComp (out : RPath) (c : PComp) : RPath := ⟨out.absolute, out.comps ++ [c]⟩

/-- normalize from src/inotify.rs lines 74-89: panics (here: `none`) on a
relative path, otherwise rebuilds the path by iterating components() and
pushing each one.  The initial ⟨true, []⟩ is the effect of pushing "/" for
the leading RootDir component of an absolute path; the remaining components
are pushed verbatim (the CurDir arm of the source match is dead for
absolute paths because components() already dropped them). -/
def normalize (p : RPath) : Option RPath :=
  if p.absolute then some ((rustComponents p).foldl pushComp ⟨true, []⟩)
  else none

/-! ## Filesystem oracle

`FS` answers the metadata and readlink syscalls issued during plan
construction: `readLink p` is `some target` exactly when lstat(p) reports a
symlink.  Paths not recorded as links are treated as existing regular
files/directories — IO failures (ENOENT, EACCES) are outside the scope of
the claims modelled here. -/

structure FSLink where
  src : RPath
  target : RPath
deriving DecidableEq

structure FS where
  links : List FSLink
deriving DecidableEq

def lookupLinks : List FSLink → RPath → Option RPath
  | [], _ => none
  | l :: rest, p => if l.src = p then some l.target else lookupLinks rest p

def FS.readLink (fs : FS) (p : RPath) : Option RPath := lookupLinks fs.links p

def FS.isSymlink (fs : FS) (p : RPath) : Bool := (fs.readLink p).isSome

/-! ## inotify mask bits (libc values; recorded per watch, never read back
by the event loop in src/backend/inotify.rs) -/

def IN_MODIFY : Nat := 2
def IN_CLOSE_WRITE : Nat := 8
def IN_MOVED_FROM : Nat := 64
def IN_MOVED_TO : Nat := 128
def IN_DELETE : Nat := 512
def IN_DELETE_SELF : Nat := 1024
def IN_MOVE_SELF : Nat := 2048
def IN_DONT_FOLLOW : Nat := 33554432

/-- Mask used for the main chain and for symlink ancestors
(CloseWrite | DeleteSelf | Modify | MoveSelf | DontFollow). -/
def maskMainChain : Nat :=
  IN_CLOSE_WRITE ||| IN_DELETE_SELF ||| IN_MODIFY ||| IN_MOVE_SELF ||| IN_DONT_FOLLOW

/-- Mask used for non-symlink ancestor directories
(Delete | DeleteSelf | Modify | MoveSelf | MovedFrom | MovedTo | DontFollow). -/
def maskAncestorDir : Nat :=
  IN_DELETE ||| IN_DELETE_SELF ||| IN_MODIFY ||| IN_MOVE_SELF |||
    IN_MOVED_FROM ||| IN_MOVED_TO ||| IN_DONT_FOLLOW

/-! ## load_config state (src/backend/inotify.rs lines 41-47) -/

/-- One kernel watch: inotify_add_watch on the same path returns the same
descriptor and replaces the mask, so entries are keyed by path. -/
structure WatchEntry where
  path : RPath
  mask : Nat
  handle : Nat
deriving DecidableEq

def findWatch : List WatchEntry → RPath → Option WatchEntry
  | [], _ => none
  | w :: rest, p => if w.path = p then some w else findWatch rest p

def setMask : List WatchEntry → RPath → Nat → List WatchEntry
  | [], _, _ => []
  | w :: rest, p, m =>
    if w.path = p then ⟨w.path, m, w.handle⟩ :: rest else w :: setMask rest p m

/-- HashMap::insert semantics for the interesting_children map: replaces an
existing binding for the handle, otherwise appends. -/
def insertKV : List (Nat × String) → Nat → String → List (Nat × String)
  | [], k, v => [(k, v)]
  | e :: rest, k, v => if e.1 = k then (k, v) :: rest else e :: insertKV rest k v

def lookupKV : List (Nat × String) → Nat → Option String
  | [], _ => none
  | e :: rest, k => if e.1 = k then some e.2 else lookupKV rest k

/-- The mutable state of load_config: the INotify watch table, the
watch_handles vec, interesting_children, symlinks, the pending ancestor
queue (hanging_dirs / next_round), and seen_dirs. -/
structure LCState where
  watches : List WatchEntry
  watchHandles : List Nat
  interesting : List (Nat × String)
  symlinks : List Nat
  nextRound : List (RPath × Option String)
  seenDirs : List RPath
deriving DecidableEq

def emptyLC : LCState := ⟨[], [], [], [], [], []⟩

/-- INotify::add_watch: an existing watch on the path keeps its descriptor
(the kernel replaces the mask); a new path gets the next descriptor. -/
def addWatch (st : LCState) (p : RPath) (mask : Nat) : LCState × Nat :=
  match findWatch st.watches p with
  | some w => ({ st with watches := setMask st.watches p mask }, w.handle)
  | none =>
    ({ st with watches := st.watches ++ [⟨p, mask, st.watches.length⟩] },
      st.watches.length)

/-- The idiom `watch_handles.push(notify.add_watch(..)?)` used at every
watch site of load_config: add the watch and record its handle. -/
def trackWatch (st : LCState) (p : RPath) (m : Nat) : LCState × Nat :=
  let aw := addWatch st p m
  ({ aw.1 with watchHandles := aw.1.watchHandles ++ [aw.2] }, aw.2)

/-- Abnormal terminations of the plan build: `panicked` models a Rust panic
(the unwrap/expect sites of load_config), `fuelOut` means the modelling
fuel ran out (the source loops with no bound at that point). -/
inductive BuildErr where
  | panicked : String → BuildErr
  | fuelOut : BuildErr
deriving DecidableEq

abbrev BuildM (α : Type) := Except BuildErr α

/-! ## Phase 1 — the main symlink chain (src/backend/inotify.rs lines 48-81) -/

/-- Lines 62-67: if the current main file has a parent, enqueue
(parent, Some(file_name)) into hanging_dirs; current_main_file.file_name()
is unwrapped and panics when the final component is not a named one. -/
def phase1Hang (st : LCState) (current : RPath) : BuildM LCState :=
  match current.parent with
  | none => Except.ok st
  | some par =>
    match current.fileName with
    | none => Except.error (BuildErr.panicked "phase1 file_name")
    | some n => Except.ok { st with nextRound := st.nextRound ++ [(par, some n)] }

/-- Lines 48-81: watch the current main file, record the hanging parent,
lstat it; a symlink records the handle in `symlinks`, resolves the link
target (a relative target is joined against the symlink's own parent,
line 73), normalizes and loops; otherwise the chain is complete.  The
source loop has no iteration bound, hence the fuel. -/
def phase1 (fs : FS) : Nat → LCState → RPath → BuildM (LCState × RPath)
  | 0, _, _ => Except.error BuildErr.fuelOut
  | fuel + 1, st0, current =>
    let tw := trackWatch st0 current maskMainChain
    match phase1Hang tw.1 current with
    | Except.error e => Except.error e
    | Except.ok st3 =>
      match fs.readLink current with
      | none => Except.ok (st3, current)
      | some link =>
        let st4 := { st3 with symlinks := st3.symlinks ++ [tw.2] }
        match (if link.isRelative then
                 match current.parent with
                 | none => Except.error (BuildErr.panicked "phase1 parent")
                 | some par => Except.ok (par.join link)
               else Except.ok link) with
        | Except.error e => Except.error e
        | Except.ok joined =>
          match normalize joined with
          | none => Except.error (BuildErr.panicked "normalize relative")
          | some nrm => phase1 fs fuel st4 nrm

/-! ## Phase 2 — ancestor chains (src/backend/inotify.rs lines 82-174) -/

/-- Lines 129-172: the upward walk from a dequeued dir toward the root.
`dir` stays fixed; a relative link target of a symlink ancestor is joined
against dir.parent().unwrap() (line 138) — the dequeued dir's parent, not
the symlink's own parent.  Fuel is supplied as the component length of the
starting parent, which strictly bounds the ancestor chain. -/
def walkUpGo (fs : FS) (dir : RPath) :
    Nat → RPath → Option RPath → LCState → BuildM LCState
  | _, _, none, st => Except.ok st
  | 0, _, some _, _ => Except.error BuildErr.fuelOut
  | fuel + 1, currentChild, some parent, st =>
    if parent ∈ st.seenDirs then Except.ok st
    else
      match currentChild.fileName with
      | none => Except.error (BuildErr.panicked "walk file_name current_child")
      | some childName =>
        match fs.readLink parent with
        | some link0 =>
          match (if link0.isRelative then
                   match dir.parent with
                   | none => Except.error (BuildErr.panicked "walk dir parent")
                   | some dp => Except.ok (dp.join link0)
                 else Except.ok link0) with
          | Except.error e => Except.error e
          | Except.ok link1 =>
            match normalize link1 with
            | none => Except.error (BuildErr.panicked "normalize relative")
            | some link2 =>
              let tw := trackWatch st parent maskMainChain
              let st2 := { tw.1 with
                nextRound := tw.1.nextRound ++ [(link2, some childName)],
                seenDirs := tw.1.seenDirs ++ [parent] }
              walkUpGo fs dir fuel parent parent.parent st2
        | none =>
          let tw := trackWatch st parent maskAncestorDir
          let st2 := { tw.1 with
            interesting := insertKV tw.1.interesting tw.2 childName,
            seenDirs := tw.1.seenDirs ++ [parent] }
          walkUpGo fs dir fuel parent parent.parent st2

/-- Lines 90-173: handle one dequeued (dir, child) pair.  An already-seen
dir is skipped.  A symlink dir is watched with the main-chain mask and its
resolved target enqueued for the next round with the same child (NOT
recorded in `symlinks`); a regular dir is watched with the directory mask
and `child.expect(..)` is recorded in interesting_children.  Both branches
then mark the dir seen and walk upward. -/
def processDir (fs : FS) (dir : RPath) (child : Option String) (st : LCState) :
    BuildM LCState :=
  if dir ∈ st.seenDirs then Except.ok st
  else
    let afterDir : BuildM LCState :=
      match fs.readLink dir with
      | some link0 =>
        match (if link0.isRelative then
                 match dir.parent with
                 | none => Except.error (BuildErr.panicked "dir parent")
                 | some dp => Except.ok (dp.join link0)
               else Except.ok link0) with
        | Except.error e => Except.error e
        | Except.ok link1 =>
          match normalize link1 with
          | none => Except.error (BuildErr.panicked "normalize relative")
          | some link2 =>
            let tw := trackWatch st dir maskMainChain
            Except.ok { tw.1 with nextRound := tw.1.nextRound ++ [(link2, child)] }
      | none =>
        match child with
        | none => Except.error (BuildErr.panicked "missing child for non-symlink root")
        | some c =>
          let tw := trackWatch st dir maskAncestorDir
          Except.ok { tw.1 with interesting := insertKV tw.1.interesting tw.2 c }
    match afterDir with
    | Except.error e => Except.error e
    | Except.ok st1 =>
      let st2 := { st1 with seenDirs := st1.seenDirs ++ [dir] }
      walkUpGo fs dir (dir.comps.length + 1) dir dir.parent st2

/-- Line 90: `while let Some((dir, child)) = round.pop()` pops from the END
of the Vec; callers pass the round reversed so the head of the list is the
element popped first. -/
def processRoundRev (fs : FS) : List (RPath × Option String) → LCState → BuildM LCState
  | [], st => Except.ok st
  | (dir, child) :: rest, st =>
    match processDir fs dir child st with
    | Except.error e => Except.error e
    | Except.ok st1 => processRoundRev fs rest st1

def MAX_ITER : Nat := 16

/-- Lines 84-174: consume the pending queue in rounds.  The loop BREAKS
(it does not error) when the round is empty or round_count exceeds
MAX_ITER; the returned Bool is true when the break left pending entries
unprocessed (round_count cap hit with a non-empty round).  round_count is
incremented after the check, so at most 17 rounds are processed; the fuel
of MAX_ITER + 3 therefore never runs out. -/
def phase2Go (fs : FS) : Nat → Nat → LCState → BuildM (LCState × Bool)
  | 0, _, _ => Except.error BuildErr.fuelOut
  | fuel + 1, roundCount, st =>
    let round := st.nextRound
    let st1 := { st with nextRound := [] }
    if round.isEmpty ∨ MAX_ITER < roundCount then
      Except.ok (st1, !round.isEmpty)
    else
      match processRoundRev fs round.reverse st1 with
      | Except.error e => Except.error e
      | Except.ok st2 => phase2Go fs fuel (roundCount + 1) st2

/-- load_config's plan construction (lines 41-174): phase 1 from the target
down the symlink chain, then phase 2 over the ancestor queue.  `Ok (st, t)`
means the build completed and the event loop is entered with plan `st`;
`t = true` records that the MAX_ITER cap cut the ancestor processing
short. -/
def buildPlan (fs : FS) (target : RPath) (fuel : Nat) : BuildM (LCState × Bool) :=
  match phase1 fs fuel emptyLC target with
  | Except.error e => Except.error e
  | Except.ok (st, _) => phase2Go fs (MAX_ITER + 3) 0 st

def isPanic {α : Type} : BuildM α → Bool
  | Except.error (BuildErr.panicked _) => true
  | _ => false

def isOkB {α : Type} : BuildM α → Bool
  | Except.ok _ => true
  | _ => false

def truncatedB : BuildM (LCState × Bool) → Bool
  | Except.ok r => r.2
  | _ => false

/-- Whether the completed build holds a kernel watch on path p. -/
def pathWatchedB : BuildM (LCState × Bool) → RPath → Bool
  | Except.ok r, p => (findWatch r.1.watches p).isSome
  | _, _ => false

/-! ## Event loop (src/backend/inotify.rs lines 178-203) -/

/-- The decoded event fields the loop inspects: the watch descriptor and
the (NUL-trimmed) name. -/
structure REvent where
  watchDescriptor : Nat
  name : String
deriving DecidableEq

/-- Observable effect of one event-loop iteration: `notified` is whether
context.notify.notify_one() ran; `rebuild` is whether the iteration
executed `return Ok(())`, which makes the backend loop call load_config
again and so rebuilds the whole plan. -/
structure StepEffect where
  notified : Bool
  rebuild : Bool
deriving DecidableEq

/-- Lines 186-201: an event on an interesting_children handle is dropped
unless its name equals the recorded child, in which case notify + full
refresh; an event on a `symlinks` handle always notifies + refreshes; any
other handle (the leaf file, but also the phase-2 symlink ancestors, which
are in neither map) notifies without a refresh. -/
def eventLoopStep (st : LCState) (e : REvent) : StepEffect :=
  match lookupKV st.interesting e.watchDescriptor with
  | some interest =>
    if e.name = interest then ⟨true, true⟩ else ⟨false, false⟩
  | none =>
    if e.watchDescriptor ∈ st.symlinks then ⟨true, true⟩ else ⟨true, false⟩

/-! ## Event decoder (src/inotify.rs lines 129-159) -/

def EVENT_SIZE : Nat := 16

/-- Little-endian u32 from the first four bytes of a list (the decoder only
reads these when at least EVENT_SIZE bytes remain). -/
def le32 : List Nat → Nat
  | b0 :: b1 :: b2 :: b3 :: _ => b0 + b1 * 256 + b2 * 65536 + b3 * 16777216
  | _ => 0

/-- Lines 145-147: strip trailing NUL bytes from the name. -/
def trimNuls (l : List Nat) : List Nat := (l.reverse.dropWhile (fun b => b = 0)).reverse

structure RawEvRec where
  wd : Nat
  mask : Nat
  cookie : Nat
  name : List Nat
deriving DecidableEq

/-- The inner `while !buf_ref.is_empty()` loop of INotify::stream for one
read of `readLen` bytes, with fuel counting loop iterations.  A buffer
shorter than EVENT_SIZE hits `continue` WITHOUT advancing buf_ref
(line 136-138); a name length exceeding `read_len - EVENT_SIZE` hits
`continue` after advancing past the header only (line 141-143).  `none`
means the fuel ran out with the loop still running — for a stationary
buffer that is true at every fuel, i.e. the loop spins forever. -/
def decodeGo (readLen : Nat) : Nat → List Nat → Option (List RawEvRec)
  | 0, _ => none
  | fuel + 1, buf =>
    if buf.isEmpty then some []
    else if buf.length < EVENT_SIZE then decodeGo readLen fuel buf
    else
      let len := le32 (buf.drop 12)
      let rest := buf.drop EVENT_SIZE
      if readLen - EVENT_SIZE < len then decodeGo readLen fuel rest
      else
        let ev : RawEvRec := ⟨le32 buf, le32 (buf.drop 4), le32 (buf.drop 8),
          trimNuls (rest.take len)⟩
        (decodeGo readLen fuel (rest.drop len)).map (fun evs => ev :: evs)

/-! ## Supervisor delivery (src/lib.rs lines 99-166) -/

/-- FileWatcherError (lib.rs lines 34-43): an IO failure from reading the
file, or the user parser's error. -/
inductive FileWatcherErr (E : Type) where
  | io : FileWatcherErr E
  | parse : E → FileWatcherErr E
deriving DecidableEq

/-- read_target (lines 158-166): read the file, then run the parser. -/
def readTargetModel {E T : Type} (raw : Option (List Nat))
    (parserFn : List Nat → Except E T) : Except (FileWatcherErr E) T :=
  match raw with
  | none => Except.error FileWatcherErr.io
  | some bytes =>
    match parserFn bytes with
    | Except.error e => Except.error (FileWatcherErr.parse e)
    | Except.ok v => Except.ok v

/-- The retry loop around read_target (lines 134-146): on error, log,
sleep, discard the pending notification and try again; the first success
breaks out of the loop.  `attempts` is the sequence of read_target results
the loop would observe; `none` means every attempt so far failed and the
loop is still retrying. -/
def firstOkRead {E T : Type} : List (Except E T) → Option T
  | [] => none
  | Except.error _ :: rest => firstOkRead rest
  | Except.ok v :: _ => some v

/-- What one notification delivers to the channel (line 147): exactly the
first successful read_target value, and nothing while the loop is still
failing. -/
def deliveredOnNotify {E T : Type} (attempts : List (Except E T)) : List T :=
  match firstOkRead attempts with
  | some v => [v]
  | none => []

def okValue {E T : Type} : Except E T → Option T
  | Except.ok v => some v
  | Except.error _ => none

/-! ## Task lifecycles (lib.rs run, backend/inotify.rs start_backend) -/

inductive TaskCtl where
  | keepRunning : TaskCtl
  | taskDone : TaskCtl
deriving DecidableEq

/-- One iteration of the loop spawned by start_backend (backend/inotify.rs
lines 23-32): `loop { if let Err(e) = load_config(..).await { log; sleep } }`.
Whatever load_config returns, the body falls through to the next
iteration — there is no break or return, and the receiver/channel state is
not even an input to this task. -/
def backendLoopIter (outcome : Except Unit Unit) : TaskCtl :=
  match outcome with
  | Except.error _ => TaskCtl.keepRunning
  | Except.ok _ => TaskCtl.keepRunning

/-- Whether the backend task is still alive after observing a sequence of
load_config outcomes. -/
def backendTaskAlive : List (Except Unit Unit) → Bool
  | [] => true
  | r :: rest =>
    match backendLoopIter r with
    | TaskCtl.keepRunning => backendTaskAlive rest
    | TaskCtl.taskDone => false

inductive SelectArm where
  | notifiedArm : SelectArm
  | closedArm : SelectArm
deriving DecidableEq

/-- One iteration of run's select loop (lib.rs lines 131-155): the
channel-closed arm returns; the notified arm re-reads and returns only if
the send fails (receiver dropped). -/
def runSelectIter (arm : SelectArm) (sendOk : Bool) : TaskCtl :=
  match arm with
  | SelectArm.closedArm => TaskCtl.taskDone
  | SelectArm.notifiedArm => if sendOk then TaskCtl.keepRunning else TaskCtl.taskDone

/-! ## Paths used by run / start_backend (claim C7) -/

/-- The configuration fields relevant to path handling. -/
structure FWConfig where
  file : RPath
deriving DecidableEq

/-- read_target (lib.rs line 164) reads `self.file` — the originally
configured path, on the initial read and on every later read. -/
def readTargetPath (c : FWConfig) : RPath := c.file

/-- run (lib.rs lines 117-122): the copy of the path handed to the backend
is joined with the current working directory when relative and the cwd is
available; `self.file` itself is not modified. -/
def runBackendFile (c : FWConfig) (cwd : Option RPath) : RPath :=
  if c.file.isRelative then
    match cwd with
    | some d => d.join c.file
    | none => c.file
  else c.file

/-- start_backend (backend/inotify.rs line 21) then normalizes that copy
(`none` models the normalize panic on a still-relative path). -/
def startBackendTarget (c : FWConfig) (cwd : Option RPath) : Option RPath :=
  normalize (runBackendFile c cwd)

/-! ## Cleanliness predicates for the plan-build safety analysis -/

/-- Every component is a named (Normal) one — no `.` and no `..`. -/
def cleanCompsB (l : List PComp) : Bool :=
  l.all (fun c => match c with | PComp.normal _ => true | _ => false)

def cleanAbsB (p : RPath) : Bool := p.absolute && cleanCompsB p.comps

/-- A pending-queue entry is healthy: a clean absolute dir and a present
expected-child name. -/
def entryOkB (e : RPath × Option String) : Bool := cleanAbsB e.1 && e.2.isSome

def stOkB (st : LCState) : Bool := st.nextRound.all entryOkB

/-- Filesystem well-formedness: no symlink is recorded at the bare root,
and every recorded link target has only named components. -/
def fsOkB (fs : FS) : Bool :=
  fs.links.all (fun l => !l.src.comps.isEmpty && cleanCompsB l.target.comps)

/-- The final component is a named one (the precondition claim C10
states). -/
def endsNormalB (p : RPath) : Bool :=
  match p.comps.getLast? with
  | some (PComp.normal _) => true
  | _ => false

/-! ## Concrete fixtures -/

def pn (s : String) : PComp := PComp.normal s

def absP (l : List String) : RPath := ⟨true, l.map pn⟩

/-- Fixture for C4's counterexample and C8's witness: target /l/f where the
ancestor directory /l is a symlink to /d. -/
def fsC4 : FS := ⟨[⟨absP ["l"], absP ["d"]⟩]⟩

def tgtC4 : RPath := absP ["l", "f"]

def planC4 : LCState :=
  match buildPlan fsC4 tgtC4 40 with
  | Except.ok r => r.1
  | Except.error _ => emptyLC

/-- Fixture for C4's witness: target /s, itself a symlink to the regular
file /t (a main-chain symlink hop). -/
def fsW : FS := ⟨[⟨absP ["s"], absP ["t"]⟩]⟩

def tgtW : RPath := absP ["s"]

def planW : LCState :=
  match buildPlan fsW tgtW 40 with
  | Except.ok r => r.1
  | Except.error _ => emptyLC

/-- Fixture for C5: target /a/b/c/f where the mid-chain ancestor /a/b is a
symlink with the relative target x. -/
def fsC5 : FS := ⟨[⟨absP ["a", "b"], ⟨false, [pn "x"]⟩⟩]⟩

def tgtC5 : RPath := absP ["a", "b", "c", "f"]

/-- Fixture for C2: the ancestor chain /d1 → /d2 → … → /d19 of symlinked
directories (18 hops), target /d1/f; phase 2 needs more than 16 rounds. -/
def fs2 : FS :=
  ⟨(List.range 18).map (fun i =>
    ⟨absP ["d" ++ toString (i + 1)], absP ["d" ++ toString (i + 2)]⟩)⟩

def tgt2 : RPath := absP ["d1", "f"]

def fsEmptyFS : FS := ⟨[]⟩

/-- Fixture for C10's counterexample: the normalized target /a/../b/f ends
in a named component, yet the ancestor walk panics on file_name(/a/..). -/
def t10 : RPath := ⟨true, [pn "a", PComp.parentDir, pn "b", pn "f"]⟩

/-- Fixture for C6's counterexample and C7's witness. -/
def p6 : RPath := ⟨true, [pn "a", PComp.parentDir, pn "b"]⟩

def p6cur : RPath := ⟨true, [pn "a", PComp.curDir, PComp.parentDir, pn "b"]⟩

/-- Fixture for C7: a relative configured file path. -/
def cfgRel : FWConfig := ⟨⟨false, [pn "cfg"]⟩⟩

def cwdW : RPath := absP ["home"]

/-- Fixture for C3: a 17-byte read whose single record declares a 100-byte
name while only 1 byte remains after the header. -/
def badBuf : List Nat :=
  [1, 0, 0, 0, 0, 0, 0, 0, 0, 0, 0, 0, 100, 0, 0, 0, 7]

/-- A build result that did not panic: fuel exhaustion is acceptable (the
source loops are unbounded there) and a completed build must satisfy P. -/
def buildOk {α : Type} (P : α → Prop) : BuildM α → Prop
  | Except.error (BuildErr.panicked _) => False
  | Except.error BuildErr.fuelOut => True
  | Except.ok a => P a

/-! # Proofs -/

/-! ## Path normaliser facts -/

theorem foldl_pushComp (l : List PComp) (acc : RPath) :
    l.foldl pushComp acc = ⟨acc.absolute, acc.comps ++ l⟩ := by
  induction l generalizing acc with
  | nil => simp [RPath.mk.injEq]
  | cons c rest ih =>
    simp only [List.foldl_cons, ih, pushComp, List.append_assoc, List.singleton_append]

theorem normalize_absolute (p : RPath) (h : p.absolute = true) :
    normalize p = some ⟨true, p.comps.filter (fun c => c ≠ PComp.curDir)⟩ := by
  simp [normalize, h, rustComponents, foldl_pushComp]

/-- Claim C6, counterexample: normalize does not collapse `..` — on the
absolute path /a/../b it returns the path unchanged, with the ParentDir
component still present, refuting that the result is free of such
components. -/
theorem normalize_keeps_parentdir_counterexample :
    normalize p6 = some p6 ∧ PComp.parentDir ∈ p6.comps := by
  constructor
  · decide
  · decide

/-- Claim C6 (amended): normalize requires an absolute path and rebuilds it
from Path::components(), which drops `.` components but preserves `..`
literally; no filesystem access is involved (the function is pure). -/
theorem normalize_drops_curdir_keeps_parentdir (p : RPath) (h : p.absolute = true) :
    ∃ q, normalize p = some q ∧ q.absolute = true ∧
      q.comps = p.comps.filter (fun c => c ≠ PComp.curDir) := by
  refine ⟨⟨true, p.comps.filter (fun c => c ≠ PComp.curDir)⟩, ?_, rfl, rfl⟩
  exact normalize_absolute p h

/-- Witness for the amended C6 theorem at the concrete path /a/./../b. -/
theorem normalize_drops_curdir_keeps_parentdir_witness :
    p6cur.absolute = true ∧
      ∃ q, normalize p6cur = some q ∧ q.absolute = true ∧
        q.comps = p6cur.comps.filter (fun c => c ≠ PComp.curDir) :=
  ⟨rfl, normalize_drops_curdir_keeps_parentdir p6cur rfl⟩

/-! ## MAX_ITER behaviour (claim C2) -/

/-- Claim C2, counterexample: on the 18-hop ancestor symlink chain — which
needs more than 16 phase-2 rounds — load_config's plan build completes
without any error (it reaches the event loop); the truncation flag records
that the round cap broke the loop with pending entries unprocessed, so no
MaxIterationExceeded-style error is ever produced. -/
theorem max_iter_no_error_counterexample :
    isOkB (buildPlan fs2 tgt2 40) = true ∧ truncatedB (buildPlan fs2 tgt2 40) = true := by
  constructor
  · decide
  · decide

/-- Claim C2 (amended): when the ancestor chain needs more than 16 rounds,
the phase-2 loop silently breaks after 17 rounds (round_count > MAX_ITER)
and the supervisor proceeds to the event loop with the partially built
plan: hop /d17 is watched but /d18 and beyond are not. -/
theorem max_iter_truncates_plan :
    truncatedB (buildPlan fs2 tgt2 40) = true ∧
      pathWatchedB (buildPlan fs2 tgt2 40) (absP ["d17"]) = true ∧
      pathWatchedB (buildPlan fs2 tgt2 40) (absP ["d18"]) = false := by
  refine ⟨?_, ?_, ?_⟩ <;> decide

/-! ## Relative link resolution in the ancestor walk (claim C5) -/

/-- Claim C5: with target /a/b/c/f and the mid-chain ancestor /a/b a
symlink to the relative target x, the build resolves the link against the
dequeued dir's parent (/a/b, the parent of dir = /a/b/c) and watches
/a/b/x, not against the symlink's own parent (/a), whose join /a/x is left
unwatched — evaluating the code at the failing input of the claim. -/
theorem ancestor_walk_joins_against_dequeued_dir :
    fsC5.readLink (absP ["a", "b"]) = some ⟨false, [pn "x"]⟩ ∧
      pathWatchedB (buildPlan fsC5 tgtC5 40) (absP ["a", "b", "x"]) = true ∧
      pathWatchedB (buildPlan fsC5 tgtC5 40) (absP ["a", "x"]) = false := by
  refine ⟨?_, ?_, ?_⟩ <;> decide

/-! ## Event classification (claims C4, C8) -/

/-- Claim C4, counterexample: in the plan for target /l/f with the
ancestor directory /l a symlink to /d, the watch on the symlink /l (handle
1, installed with the DontFollow main-chain mask) is in neither
interesting_children nor the `symlinks` set, so its events produce
notify WITHOUT a plan rebuild — not the claimed refresh + rebuild. -/
theorem ancestor_symlink_event_no_rebuild_counterexample :
    fsC4.isSymlink (absP ["l"]) = true ∧
      findWatch planC4.watches (absP ["l"]) = some ⟨absP ["l"], maskMainChain, 1⟩ ∧
      lookupKV planC4.interesting 1 = none ∧
      (1 ∈ planC4.symlinks → False) ∧
      eventLoopStep planC4 ⟨1, "f"⟩ = ⟨true, false⟩ := by
  refine ⟨?_, ?_, ?_, ?_, ?_⟩ <;> decide

/-- Claim C4 (amended): only main-chain symlink hops are recorded in the
`symlinks` set, and for every event whose handle is in that set (and not
shadowed by interesting_children, which the loop checks first) the
classifier signals refresh and a full plan rebuild regardless of the
event's name; symlink ancestors watched in phase 2 are in neither map and
classify as notify-only. -/
theorem main_chain_symlink_event_rebuilds (st : LCState) (e : REvent)
    (h1 : lookupKV st.interesting e.watchDescriptor = none)
    (h2 : e.watchDescriptor ∈ st.symlinks) :
    eventLoopStep st e = ⟨true, true⟩ := by
  simp [eventLoopStep, h1, h2]

/-- Witness for the amended C4 theorem: in the plan for target /s (a
symlink to /t), the main-chain hop /s has handle 0, which is in the
symlinks set; an event on it with an arbitrary name rebuilds. -/
theorem main_chain_symlink_event_rebuilds_witness :
    lookupKV planW.interesting 0 = none ∧ 0 ∈ planW.symlinks ∧
      eventLoopStep planW ⟨0, "x"⟩ = ⟨true, true⟩ :=
  ⟨by decide, by decide,
    main_chain_symlink_event_rebuilds planW ⟨0, "x"⟩ (by decide) (by decide)⟩

/-- Claim C8 (confirmed): for every event whose watch handle is recorded in
interesting_children, the event loop notifies the supervisor and triggers
a full plan rebuild exactly when the event's name equals the recorded
expected child; otherwise the event is dropped with no notification and no
rebuild. -/
theorem interesting_children_name_filter (st : LCState) (e : REvent)
    (interest : String)
    (h : lookupKV st.interesting e.watchDescriptor = some interest) :
    (e.name = interest → eventLoopStep st e = ⟨true, true⟩) ∧
      (e.name ≠ interest → eventLoopStep st e = ⟨false, false⟩) := by
  constructor <;> intro hn <;> simp [eventLoopStep, h, hn]

/-- Witness for C8: in the plan for target /l/f, the root directory watch
(handle 2) records expected child l; an event named l rebuilds, an event
named z is dropped. -/
theorem interesting_children_name_filter_witness :
    lookupKV planC4.interesting 2 = some "l" ∧
      ((REvent.mk 2 "l").name = "l" → eventLoopStep planC4 ⟨2, "l"⟩ = ⟨true, true⟩) ∧
      ((REvent.mk 2 "l").name ≠ "l" → eventLoopStep planC4 ⟨2, "l"⟩ = ⟨false, false⟩) :=
  ⟨by decide, interesting_children_name_filter planC4 ⟨2, "l"⟩ "l" (by decide)⟩

/-! ## Decoder progress (claim C3) -/

theorem decodeGo_spins_on_short_buf (fuel : Nat) : decodeGo 17 fuel [7] = none := by
  induction fuel with
  | zero => rfl
  | succ f ih => simpa [decodeGo, EVENT_SIZE] using ih

/-- Claim C3: with a 17-byte read whose single record declares a 100-byte
name (name_length exceeds the 1 byte remaining after the header), the
decoder's `continue` re-enters the loop on a stationary 1-byte buffer and
never terminates: for every fuel the loop has neither exited nor yielded.
The claim that the decoder discards the partial record and bails out of
the read is refuted by the code, which spins without advancing. -/
theorem decoder_spins_on_oversized_name_length :
    badBuf.length = 17 ∧ le32 (badBuf.drop 12) = 100 ∧
      ∀ fuel, decodeGo 17 fuel badBuf = none := by
  refine ⟨by decide, by decide, ?_⟩
  intro fuel
  cases fuel with
  | zero => rfl
  | succ f =>
    show decodeGo 17 (f + 1) badBuf = none
    simpa [decodeGo, EVENT_SIZE, badBuf, le32] using decodeGo_spins_on_short_buf f

/-! ## Parser isolation (claim C9) -/

theorem firstOkRead_eq_head_oks {E T : Type} (l : List (Except E T)) :
    firstOkRead l = (l.filterMap okValue).head? := by
  induction l with
  | nil => rfl
  | cons r rest ih => cases r <;> simp [firstOkRead, okValue, ih]

/-- Claim C9 (confirmed): the value delivered to the channel for a
notification is exactly the first successful read_target result — never an
Io or Parse error (the channel carries only parsed values), and after N
consecutive failures followed by a success, exactly the one successful
value is delivered. -/
theorem consumer_sees_only_parsed_values :
    (∀ (E T : Type) (l : List (Except (FileWatcherErr E) T)),
        deliveredOnNotify l = (l.filterMap okValue).take 1) ∧
      (∀ (E T : Type) (n : Nat) (e : FileWatcherErr E) (v : T),
        deliveredOnNotify (List.replicate n (Except.error e) ++ [Except.ok v]) = [v]) := by
  have hgen : ∀ (E T : Type) (l : List (Except E T)),
      deliveredOnNotify l = (l.filterMap okValue).take 1 := by
    intro E T l
    rw [deliveredOnNotify, firstOkRead_eq_head_oks]
    cases (l.filterMap okValue) <;> simp
  refine ⟨fun E T l => hgen _ _ l, ?_⟩
  intro E T n e v
  rw [hgen]
  induction n with
  | zero => simp [okValue]
  | succ m _ => simp [List.replicate_succ, okValue]

/-! ## Task lifecycle on receiver drop (claim C1) -/

/-- Claim C1: the supervisor's select loop does return when the channel
closes, but the task spawned by start_backend never terminates — its loop
body continues for every possible load_config outcome, and the
receiver/channel state is not an input to it at all.  The spawned backend
task (holding the WatcherContext and rebuilding inotify state) therefore
survives the receiver being dropped, refuting the no-surviving-task and
resource-release claim. -/
theorem backend_task_survives_receiver_drop :
    runSelectIter SelectArm.closedArm true = TaskCtl.taskDone ∧
      (∀ r, backendLoopIter r = TaskCtl.keepRunning) ∧
      (∀ outcomes : List (Except Unit Unit), backendTaskAlive outcomes = true) := by
  refine ⟨rfl, fun r => by cases r <;> rfl, ?_⟩
  intro outcomes
  induction outcomes with
  | nil => rfl
  | cons r rest ih => cases r <;> simpa [backendTaskAlive, backendLoopIter] using ih

/-! ## Path used for reads vs plan building (claim C7) -/

/-- Claim C7, counterexample: with the relative configured path cfg,
read_target reads `self.file` unchanged — a relative, unnormalized path —
on the initial read and on every later read, while only the backend's copy
is made absolute; this refutes that the path used for every read of the
file is always absolute and normalized. -/
theorem read_path_stays_relative_counterexample :
    (readTargetPath cfgRel).absolute = false ∧
      readTargetPath cfgRel = cfgRel.file ∧
      startBackendTarget cfgRel (some cwdW) = some (absP ["home", "cfg"]) := by
  refine ⟨?_, ?_, ?_⟩ <;> decide

/-- Claim C7 (amended): the path handed to the backend for plan building is
absolute whenever the current working directory is available (joined with
it if the configured path was relative) and normalized by start_backend
(no CurDir components remain); the path used by read_target for every
read, however, is the originally configured path, unchanged. -/
theorem backend_path_absolute_reads_unchanged (c : FWConfig) (d : RPath)
    (h : d.absolute = true) :
    (∃ q, startBackendTarget c (some d) = some q ∧ q.absolute = true ∧
        ∀ x ∈ q.comps, x ≠ PComp.curDir) ∧
      readTargetPath c = c.file := by
  refine ⟨?_, rfl⟩
  have habs : (runBackendFile c (some d)).absolute = true := by
    by_cases hrel : c.file.isRelative = true
    · have hfa : c.file.absolute = false := by
        simpa [RPath.isRelative] using hrel
      simp [runBackendFile, hrel, RPath.join, hfa, h]
    · have hfa : c.file.absolute = true := by
        simpa [RPath.isRelative] using hrel
      simp [runBackendFile, hrel, hfa]
  refine ⟨⟨true, (runBackendFile c (some d)).comps.filter (fun x => x ≠ PComp.curDir)⟩,
    ?_, rfl, ?_⟩
  · exact normalize_absolute _ habs
  · intro x hx
    exact of_decide_eq_true (List.mem_filter.mp hx).2

/-- Witness for the amended C7 theorem at the relative path cfg with cwd
/home. -/
theorem backend_path_absolute_reads_unchanged_witness :
    cwdW.absolute = true ∧
      ((∃ q, startBackendTarget cfgRel (some cwdW) = some q ∧ q.absolute = true ∧
          ∀ x ∈ q.comps, x ≠ PComp.curDir) ∧
        readTargetPath cfgRel = cfgRel.file) :=
  ⟨rfl, backend_path_absolute_reads_unchanged cfgRel cwdW rfl⟩

/-! ## Panic-safety of the plan build (claim C10) -/

/-- Claim C10, counterexample: the target /a/../b/f satisfies the claim's
precondition — it is its own normalized form and ends in the named
component f, and with no symlinks the chain condition is vacuous — yet the
plan build panics (file_name().unwrap() on the ancestor /a/.. during the
upward walk), so ending in a named component is not a sufficient
precondition. -/
theorem plan_build_panics_within_claimed_precondition :
    normalize t10 = some t10 ∧ endsNormalB t10 = true ∧ fsEmptyFS.links = [] ∧
      isPanic (buildPlan fsEmptyFS t10 20) = true := by
  refine ⟨?_, ?_, rfl, ?_⟩ <;> decide

theorem cleanComps_dropLast {l : List PComp} (h : cleanCompsB l = true) :
    cleanCompsB l.dropLast = true := by
  rw [cleanCompsB, List.all_eq_true] at h ⊢
  intro x hx
  exact h x (l.dropLast_sublist.subset hx)

theorem parent_eq_none {p : RPath} : p.parent = none ↔ p.comps = [] := by
  rw [RPath.parent]
  split <;> simp_all [List.isEmpty_iff]

theorem parent_of_ne {p : RPath} (h : p.comps ≠ []) :
    p.parent = some ⟨p.absolute, p.comps.dropLast⟩ := by
  rw [RPath.parent, if_neg]
  simpa [List.isEmpty_iff] using h

theorem cleanAbs_parts {p : RPath} (h : cleanAbsB p = true) :
    p.absolute = true ∧ cleanCompsB p.comps = true := by
  simpa [cleanAbsB] using h

theorem clean_parent {p q : RPath} (hp : cleanAbsB p = true)
    (hq : p.parent = some q) : cleanAbsB q = true := by
  rw [RPath.parent] at hq
  split at hq
  · cases hq
  · cases hq
    rcases cleanAbs_parts hp with ⟨h1, h2⟩
    simp [cleanAbsB, h1, cleanComps_dropLast h2]

theorem getLast_clean : ∀ (l : List PComp), cleanCompsB l = true → l ≠ [] →
    ∃ s, l.getLast? = some (PComp.normal s) := by
  intro l
  induction l with
  | nil => intro _ h; exact absurd rfl h
  | cons a rest ih =>
    intro hc _
    cases rest with
    | nil =>
      cases a with
      | normal s => exact ⟨s, rfl⟩
      | parentDir => simp [cleanCompsB] at hc
      | curDir => simp [cleanCompsB] at hc
    | cons b r =>
      have hc' : cleanCompsB (b :: r) = true := by
        simp only [cleanCompsB, List.all_cons, Bool.and_eq_true] at hc ⊢
        exact hc.2
      obtain ⟨s, hs⟩ := ih hc' (by simp)
      exact ⟨s, by rw [List.getLast?_cons_cons]; exact hs⟩

theorem clean_fileName {p : RPath} (hp : cleanCompsB p.comps = true)
    (hne : p.comps ≠ []) : ∃ s, p.fileName = some s := by
  obtain ⟨s, hs⟩ := getLast_clean p.comps hp hne
  exact ⟨s, by rw [RPath.fileName, hs]⟩

theorem lookupLinks_mem {ls : List FSLink} {p t : RPath}
    (h : lookupLinks ls p = some t) : ∃ l ∈ ls, l.src = p ∧ l.target = t := by
  induction ls with
  | nil => cases h
  | cons a rest ih =>
    rw [lookupLinks] at h
    split at h
    · cases h
      exact ⟨a, List.mem_cons_self a rest, by assumption, rfl⟩
    · obtain ⟨l, hl, hs, ht⟩ := ih h
      exact ⟨l, List.mem_cons_of_mem a hl, hs, ht⟩

theorem readLink_props {fs : FS} {p t : RPath} (hfs : fsOkB fs = true)
    (h : fs.readLink p = some t) :
    p.comps ≠ [] ∧ cleanCompsB t.comps = true := by
  obtain ⟨l, hl, hs, ht⟩ := lookupLinks_mem h
  rw [fsOkB, List.all_eq_true] at hfs
  have h2 := hfs l hl
  simp only [Bool.and_eq_true, Bool.not_eq_true'] at h2
  subst hs
  subst ht
  refine ⟨?_, h2.2⟩
  intro he
  rw [he] at h2
  simp at h2

theorem join_clean {b t : RPath} (hb : cleanAbsB b = true)
    (ht : cleanCompsB t.comps = true) : cleanAbsB (b.join t) = true := by
  rcases cleanAbs_parts hb with ⟨h1, h2⟩
  rw [RPath.join]
  split
  · simp_all [cleanAbsB]
  · simp [cleanAbsB, h1, cleanCompsB, List.all_append]
    constructor
    · simpa [cleanCompsB] using h2
    · simpa [cleanCompsB] using ht

theorem normalize_clean {p : RPath} (hp : cleanAbsB p = true) :
    normalize p = some p := by
  rcases cleanAbs_parts hp with ⟨h1, h2⟩
  rw [normalize_absolute p h1]
  rw [cleanCompsB, List.all_eq_true] at h2
  have hf : p.comps.filter (fun c => c ≠ PComp.curDir) = p.comps := by
    refine List.filter_eq_self.mpr ?_
    intro x hx
    have := h2 x hx
    cases x <;> simp_all
  rw [hf]
  cases p with
  | mk a c => simp_all

theorem addWatch_nextRound (st : LCState) (p : RPath) (m : Nat) :
    ((addWatch st p m).1).nextRound = st.nextRound := by
  rw [addWatch]
  split <;> rfl

theorem trackWatch_nextRound (st : LCState) (p : RPath) (m : Nat) :
    ((trackWatch st p m).1).nextRound = st.nextRound := by
  rw [trackWatch]
  exact addWatch_nextRound st p m

theorem stOk_trackWatch {st : LCState} (p : RPath) (m : Nat)
    (hst : stOkB st = true) : stOkB (trackWatch st p m).1 = true := by
  rw [stOkB, trackWatch_nextRound]
  exact hst

theorem stOk_append {st : LCState} (hst : stOkB st = true)
    {e : RPath × Option String} (he : entryOkB e = true) :
    (st.nextRound ++ [e]).all entryOkB = true := by
  rw [List.all_append]
  simp_all [stOkB]

theorem phase1Hang_ok (st : LCState) (current : RPath)
    (hc : cleanAbsB current = true) (hst : stOkB st = true) :
    buildOk (fun st' => stOkB st' = true) (phase1Hang st current) := by
  rw [phase1Hang]
  cases hp : current.parent with
  | none => exact hst
  | some par =>
    have hne : current.comps ≠ [] := by
      intro he
      rw [parent_eq_none.mpr he] at hp
      cases hp
    obtain ⟨s, hs⟩ := clean_fileName (cleanAbs_parts hc).2 hne
    rw [hs]
    show stOkB _ = true
    rw [stOkB]
    refine stOk_append hst ?_
    have hpar : cleanAbsB par = true := clean_parent hc hp
    simp [entryOkB, hpar]

theorem phase1_ok (fs : FS) (hfs : fsOkB fs = true) :
    ∀ (fuel : Nat) (st : LCState) (current : RPath),
      stOkB st = true → cleanAbsB current = true →
      buildOk (fun out => stOkB out.1 = true) (phase1 fs fuel st current) := by
  intro fuel
  induction fuel with
  | zero => intro st current _ _; trivial
  | succ f ih =>
    intro st current hst hc
    simp only [phase1]
    have hhang := phase1Hang_ok (trackWatch st current maskMainChain).1 current hc
      (stOk_trackWatch current maskMainChain hst)
    cases hh : phase1Hang (trackWatch st current maskMainChain).1 current with
    | error e =>
      rw [hh] at hhang
      cases e with
      | panicked s => exact hhang.elim
      | fuelOut => trivial
    | ok st3 =>
      rw [hh] at hhang
      cases hl : fs.readLink current with
      | none => exact hhang
      | some link =>
        dsimp only
        obtain ⟨hne, hlc⟩ := readLink_props hfs hl
        have hst4 : stOkB { st3 with
            symlinks := st3.symlinks ++ [(trackWatch st current maskMainChain).2] } = true := by
          rw [stOkB]
          exact hhang
        by_cases hrel : link.isRelative = true
        · rw [if_pos hrel, parent_of_ne hne]
          have hjoined : cleanAbsB
              ((RPath.mk current.absolute current.comps.dropLast).join link) = true := by
            refine join_clean ?_ hlc
            exact clean_parent hc (parent_of_ne hne)
          dsimp only
          rw [normalize_clean hjoined]
          exact ih _ _ hst4 hjoined
        · rw [if_neg hrel]
          have habs : link.absolute = true := by
            simpa [RPath.isRelative] using hrel
          have hlinkc : cleanAbsB link = true := by
            simp [cleanAbsB, habs, hlc]
          dsimp only
          rw [normalize_clean hlinkc]
          exact ih _ _ hst4 hlinkc

theorem walkUpGo_ok (fs : FS) (hfs : fsOkB fs = true) (dir : RPath)
    (hdir : cleanAbsB dir = true) :
    ∀ (fuel : Nat) (cc : RPath) (cp : Option RPath) (st : LCState),
      cleanAbsB cc = true → cp = cc.parent →
      (cp.isSome = true → dir.comps ≠ []) →
      stOkB st = true →
      buildOk (fun st' => stOkB st' = true) (walkUpGo fs dir fuel cc cp st) := by
  intro fuel
  induction fuel with
  | zero =>
    intro cc cp st _ _ _ hst
    cases cp with
    | none => exact hst
    | some parent => trivial
  | succ f ih =>
    intro cc cp st hcc hcp hdp hst
    cases cp with
    | none => exact hst
    | some parent =>
      simp only [walkUpGo]
      by_cases hseen : parent ∈ st.seenDirs
      · rw [if_pos hseen]
        exact hst
      · rw [if_neg hseen]
        have hccne : cc.comps ≠ [] := by
          intro he
          rw [parent_eq_none.mpr he] at hcp
          cases hcp
        obtain ⟨s, hs⟩ := clean_fileName (cleanAbs_parts hcc).2 hccne
        rw [hs]
        have hparent : cleanAbsB parent = true := clean_parent hcc hcp.symm
        have hdirne : dir.comps ≠ [] := hdp rfl
        cases hl : fs.readLink parent with
        | some link0 =>
          dsimp only
          obtain ⟨hpne, hl0c⟩ := readLink_props hfs hl
          by_cases hr : link0.isRelative = true
          · rw [if_pos hr, parent_of_ne hdirne]
            dsimp only
            have hjoin : cleanAbsB
                ((RPath.mk dir.absolute dir.comps.dropLast).join link0) = true := by
              refine join_clean ?_ hl0c
              exact clean_parent hdir (parent_of_ne hdirne)
            rw [normalize_clean hjoin]
            refine ih parent parent.parent _ hparent rfl (fun _ => hdirne) ?_
            rw [stOkB]
            show ((trackWatch st parent maskMainChain).1.nextRound ++ _).all entryOkB = true
            rw [trackWatch_nextRound]
            refine stOk_append hst ?_
            simp [entryOkB, hjoin]
          · rw [if_neg hr]
            dsimp only
            have habs : link0.absolute = true := by
              simpa [RPath.isRelative] using hr
            have hlc : cleanAbsB link0 = true := by
              simp [cleanAbsB, habs, hl0c]
            rw [normalize_clean hlc]
            refine ih parent parent.parent _ hparent rfl (fun _ => hdirne) ?_
            rw [stOkB]
            show ((trackWatch st parent maskMainChain).1.nextRound ++ _).all entryOkB = true
            rw [trackWatch_nextRound]
            refine stOk_append hst ?_
            simp [entryOkB, hlc]
        | none =>
          dsimp only
          refine ih parent parent.parent _ hparent rfl (fun _ => hdirne) ?_
          rw [stOkB]
          show (trackWatch st parent maskAncestorDir).1.nextRound.all entryOkB = true
          rw [trackWatch_nextRound]
          exact hst

theorem processDir_ok (fs : FS) (hfs : fsOkB fs = true) (dir : RPath)
    (child : Option String) (st : LCState) (hdir : cleanAbsB dir = true)
    (hch : child.isSome = true) (hst : stOkB st = true) :
    buildOk (fun st' => stOkB st' = true) (processDir fs dir child st) := by
  rw [processDir.eq_def]
  by_cases hseen : dir ∈ st.seenDirs
  · rw [if_pos hseen]
    exact hst
  · rw [if_neg hseen]
    have hwalk : ∀ (cp : Option RPath) (st2 : LCState), cp = dir.parent →
        stOkB st2 = true → buildOk (fun st' => stOkB st' = true)
          (walkUpGo fs dir (dir.comps.length + 1) dir cp st2) := by
      intro cp st2 hcp hst2
      refine walkUpGo_ok fs hfs dir hdir _ dir cp st2 hdir hcp ?_ hst2
      intro hp he
      rw [hcp, parent_eq_none.mpr he] at hp
      cases hp
    cases hl : fs.readLink dir with
    | some link0 =>
      dsimp only
      obtain ⟨hdne, hl0c⟩ := readLink_props hfs hl
      by_cases hr : link0.isRelative = true
      · rw [if_pos hr, parent_of_ne hdne]
        dsimp only
        have hjoin : cleanAbsB
            ((RPath.mk dir.absolute dir.comps.dropLast).join link0) = true := by
          refine join_clean ?_ hl0c
          exact clean_parent hdir (parent_of_ne hdne)
        rw [normalize_clean hjoin]
        dsimp only
        refine hwalk _ _ (parent_of_ne hdne).symm ?_
        rw [stOkB]
        show ((trackWatch st dir maskMainChain).1.nextRound ++ _).all entryOkB = true
        rw [trackWatch_nextRound]
        refine stOk_append hst ?_
        simp [entryOkB, hjoin, hch]
      · rw [if_neg hr]
        dsimp only
        have habs : link0.absolute = true := by
          simpa [RPath.isRelative] using hr
        have hlc : cleanAbsB link0 = true := by
          simp [cleanAbsB, habs, hl0c]
        rw [normalize_clean hlc]
        dsimp only
        refine hwalk _ _ rfl ?_
        rw [stOkB]
        show ((trackWatch st dir maskMainChain).1.nextRound ++ _).all entryOkB = true
        rw [trackWatch_nextRound]
        refine stOk_append hst ?_
        simp [entryOkB, hlc, hch]
    | none =>
      dsimp only
      cases child with
      | none => cases hch
      | some c =>
        dsimp only
        refine hwalk _ _ rfl ?_
        rw [stOkB]
        show (trackWatch st dir maskAncestorDir).1.nextRound.all entryOkB = true
        rw [trackWatch_nextRound]
        exact hst

theorem processRoundRev_ok (fs : FS) (hfs : fsOkB fs = true) :
    ∀ (round : List (RPath × Option String)) (st : LCState),
      round.all entryOkB = true → stOkB st = true →
      buildOk (fun st' => stOkB st' = true) (processRoundRev fs round st) := by
  intro round
  induction round with
  | nil => intro st _ hst; exact hst
  | cons e rest ih =>
    intro st hall hst
    rcases e with ⟨dir, child⟩
    rw [processRoundRev]
    rw [List.all_cons, Bool.and_eq_true] at hall
    have he : cleanAbsB dir = true ∧ child.isSome = true := by
      simpa [entryOkB] using hall.1
    have hd := processDir_ok fs hfs dir child st he.1 he.2 hst
    cases hpd : processDir fs dir child st with
    | error e2 =>
      rw [hpd] at hd
      cases e2 with
      | panicked s => exact hd.elim
      | fuelOut => trivial
    | ok st1 =>
      rw [hpd] at hd
      exact ih st1 hall.2 hd

theorem phase2Go_ok (fs : FS) (hfs : fsOkB fs = true) :
    ∀ (fuel roundCount : Nat) (st : LCState), stOkB st = true →
      buildOk (fun _ => True) (phase2Go fs fuel roundCount st) := by
  intro fuel
  induction fuel with
  | zero => intro _ _ _; trivial
  | succ f ih =>
    intro roundCount st hst
    rw [phase2Go]
    by_cases hbrk : st.nextRound.isEmpty = true ∨ MAX_ITER < roundCount
    · rw [if_pos hbrk]
      trivial
    · rw [if_neg hbrk]
      have hall : st.nextRound.reverse.all entryOkB = true := by
        rw [List.all_reverse]
        exact hst
      have hpr := processRoundRev_ok fs hfs st.nextRound.reverse
        { st with nextRound := [] } hall rfl
      cases hp : processRoundRev fs st.nextRound.reverse { st with nextRound := [] } with
      | error e =>
        rw [hp] at hpr
        cases e with
        | panicked s => exact hpr.elim
        | fuelOut => trivial
      | ok st2 =>
        rw [hp] at hpr
        exact ih (roundCount + 1) st2 hpr

/-- Claim C10 (amended): the claimed precondition must be strengthened from
the paths merely ending in a named component to every component of the
target and of every recorded symlink target being a named one (with no
symlink at the bare root): under that precondition no file_name/parent
unwrap or child expect in load_config's plan construction can panic, for
any filesystem and any fuel.  Under the original weaker precondition the
build can panic (see the counterexample /a/../b/f), and conversely the
bare root target — claimed to panic — is clean and therefore builds
without panicking. -/
theorem plan_build_no_panic_on_clean_paths (fs : FS) (target : RPath)
    (fuel : Nat) (hfs : fsOkB fs = true) (ht : cleanAbsB target = true) :
    isPanic (buildPlan fs target fuel) = false := by
  have h1 := phase1_ok fs hfs fuel emptyLC target rfl ht
  rw [buildPlan]
  cases hp : phase1 fs fuel emptyLC target with
  | error e =>
    rw [hp] at h1
    cases e with
    | panicked s => exact h1.elim
    | fuelOut => rfl
  | ok out =>
    rw [hp] at h1
    dsimp only
    have h2 := phase2Go_ok fs hfs (MAX_ITER + 3) 0 out.1 h1
    cases h2' : phase2Go fs (MAX_ITER + 3) 0 out.1 with
    | error e =>
      rw [h2'] at h2
      cases e with
      | panicked s => exact h2.elim
      | fuelOut => rfl
    | ok r => rfl

/-- Witness for the amended C10 theorem on the /l/f fixture (a clean
filesystem with one clean symlink). -/
theorem plan_build_no_panic_on_clean_paths_witness :
    fsOkB fsC4 = true ∧ cleanAbsB tgtC4 = true ∧
      isPanic (buildPlan fsC4 tgtC4 40) = false :=
  ⟨by decide, by decide,
    plan_build_no_panic_on_clean_paths fsC4 tgtC4 40 (by decide) (by decide)⟩

end ReallyNotify
